import Mathlib

/-!
Verification of the aquavision-dashboard fish-activity analysis core
(`backend/app/ai_model.py`) against its natural-language specification.

The Python code is shallowly embedded: numeric values use `ℚ` (the code's
floats carry exact decimal constants on the paths the claims exercise),
`np.random.random()` draws are explicit rational parameters constrained to
`[0, 1)` in theorem hypotheses, `np.random.randint(lo, hi)` is modelled as
`lo + raw % (hi - lo)` for an arbitrary natural seed `raw` (numpy's `randint`
excludes `hi`), and raised exceptions become `Except.error`.
-/

namespace AquaVision

/-- Exceptions that the embedded code paths can raise: `cvError` stands for
the OpenCV error raised by `cv2.cvtColor` on a `None` image, `valueError` for
Python's `ValueError` (raised by `max` on an empty dict and by
`datetime.replace` on an out-of-range day). -/
inductive Err where
  | cvError
  | valueError
deriving DecidableEq

/-- Labels of `self.activity_levels` (`ai_model.py` lines 79-85), indexed by
the activity-class ordinal 0..4. -/
def activityLabels : List String := ["Low", "Moderate", "Active", "High", "Feeding"]

/-- Lookup `self.activity_levels[i]` for an activity class `i`. -/
def activityLevels (i : Fin 5) : String := activityLabels.get ⟨i.val, i.isLt⟩

/-- The `self.feeding_behaviors` list (`ai_model.py` lines 88-94). -/
def feedingBehaviorLabels : List String :=
  ["Surface feeding", "Bottom feeding", "Scattered feeding",
   "Aggressive feeding", "Calm feeding"]

/-- Lookup a feeding behavior by choice index. -/
def feedingBehaviors (i : Fin 5) : String := feedingBehaviorLabels.get ⟨i.val, i.isLt⟩

/-- Per-frame prediction record (`activity_class`, `confidence`,
`feed_amount`), as appended at `ai_model.py` lines 218-222. -/
structure FramePrediction where
  activity_class : Fin 5
  confidence : ℚ
  feed_amount : ℚ
deriving DecidableEq

/-- Aggregate analysis record returned by `_analyze_frames`,
`_analyze_single_image` and `_mock_analysis` (always exactly these four
keys). -/
structure AggregateResult where
  activity_level : String
  confidence : ℚ
  feed_amount : ℚ
  fish_count : ℕ
deriving DecidableEq

/-- Model of `np.random.randint lo hi`: a uniform draw from `[lo, hi)`,
realised as `lo + raw % (hi - lo)` for an arbitrary seed `raw`. -/
def randint (lo hi raw : ℕ) : ℕ := lo + raw % (hi - lo)

/-- Random draws consumed by `_mock_analysis` (and the `randint` for
`fish_count` drawn on the model-backed paths): a label choice index, two
`np.random.random()` values and a `randint` seed. -/
structure MockRand where
  choiceIdx : Fin 5
  r1 : ℚ
  r2 : ℚ
  fishRaw : ℕ

/-- Embedding of `_mock_analysis` (`ai_model.py` lines 265-272). -/
def mockAnalysis (mr : MockRand) : AggregateResult :=
  { activity_level := activityLevels mr.choiceIdx,
    confidence := 85/100 + mr.r1 * (14/100),
    feed_amount := 2 + mr.r2 * 2,
    fish_count := randint 15 45 mr.fishRaw }

/-- Arithmetic mean of a list of rationals (`np.mean`). -/
def ratMean (l : List ℚ) : ℚ := l.sum / (l.length : ℚ)

/-- One step of building the Python dict `activity_counts`
(`ai_model.py` lines 228-230): `activity_counts[k] = activity_counts.get(k, 0) + 1`.
A Python dict preserves insertion order, so it is modelled as an association
list in key-insertion order whose first matching entry is bumped, with a new
key appended at the end. -/
def bump : List (String × ℕ) → String → List (String × ℕ)
  | [], k => [(k, 1)]
  | (a, n) :: rest, k => if a = k then (a, n + 1) :: rest else (a, n) :: bump rest k

/-- The full `activity_counts` dict built by folding `bump` over the labels of
the per-frame predictions, in frame order. -/
def countLabels (labels : List String) : List (String × ℕ) := labels.foldl bump []

/-- Semantics of Python's `max(iterable, key=...)`: scan left to right and
replace the current champion only when the key is strictly greater, so the
first element attaining the maximum wins. -/
def firstMaxPair : String × ℕ → List (String × ℕ) → String × ℕ
  | p, [] => p
  | p, q :: rest => if p.2 < q.2 then firstMaxPair q rest else firstMaxPair p rest

/-- Embedding of `dominant_activity = max(activity_counts, key=activity_counts.get)`
(`ai_model.py` line 232); Python's `max` raises `ValueError` on an empty
dict. -/
def dominantActivity (labels : List String) : Except Err String :=
  match countLabels labels with
  | [] => Except.error Err.valueError
  | c :: cs => Except.ok (firstMaxPair c cs).1

/-- Aggregation of per-frame predictions (`ai_model.py` lines 224-240):
mean confidence, dominant activity by the insertion-ordered counts dict,
feed amount `max(0.5, mean)`, and a `randint(15, 45)` fish count. -/
def aggregateResults (results : List FramePrediction) (fishRaw : ℕ) :
    Except Err AggregateResult :=
  let avgConfidence := ratMean (results.map (fun r => r.confidence))
  let labels := results.map (fun r => activityLevels r.activity_class)
  match dominantActivity labels with
  | Except.error e => Except.error e
  | Except.ok lbl =>
      Except.ok
        { activity_level := lbl,
          confidence := avgConfidence,
          feed_amount := max (1/2) (ratMean (results.map (fun r => r.feed_amount))),
          fish_count := randint 15 45 fishRaw }

/-- Model of a `cv2.VideoCapture` handle: whether the file opened, the frame
count reported by `CAP_PROP_FRAME_COUNT` container metadata, and the decodable
frames in temporal order (frames are identified by natural-number ids; the
BGR-to-RGB conversion applied on append does not change which temporal frame
is kept). An unreadable or corrupt file yields `opened = false` — OpenCV does
not raise on construction. -/
structure Capture where
  opened : Bool
  total : ℕ
  frames : List ℕ

/-- Read loop of `_extract_video_frames` (`ai_model.py` lines 178-187):
while the capture is open and fewer than `max_frames` frames are collected,
read the next frame (stop at end of stream) and keep it when its index is a
multiple of the sampling interval. `cnt` is the number collected so far. -/
def extractLoop (interval : ℕ) : List ℕ → ℕ → ℕ → List ℕ
  | [], _, _ => []
  | f :: rest, idx, cnt =>
    if cnt < 30 then
      if idx % interval = 0 then f :: extractLoop interval rest (idx + 1) (cnt + 1)
      else extractLoop interval rest (idx + 1) cnt
    else []

/-- Embedding of `_extract_video_frames` (`ai_model.py` lines 170-191) with
`max_frames = 30`: `frame_interval = max(1, total_frames // max_frames)`,
then the read loop. A capture that never opened runs zero iterations. -/
def extractVideoFrames (cap : Capture) : List ℕ :=
  if cap.opened then extractLoop (max 1 (cap.total / 30)) cap.frames 0 0 else []

/-- Embedding of `_load_image` (`ai_model.py` lines 193-197): `cv2.imread`
returns `None` for an unreadable path, and `cv2.cvtColor(None, ...)` raises
an OpenCV error. -/
def loadImage (img : Option ℕ) : Except Err ℕ :=
  match img with
  | none => Except.error Err.cvError
  | some i => Except.ok i

/-- Extension dispatch of `analyze_fish_activity` (`ai_model.py` line 137):
`file_path.lower().endswith(('.mp4', '.avi', '.mov'))`, modelled on the
path's character list. -/
def isVideoPath (p : String) : Bool :=
  List.isSuffixOf ".mp4".toList (p.toList.map Char.toLower) ||
  List.isSuffixOf ".avi".toList (p.toList.map Char.toLower) ||
  List.isSuffixOf ".mov".toList (p.toList.map Char.toLower)

/-- State of `self.model`: `noneSlot` is Python `None` (never loaded),
`mockSentinel` is the string `"mock_model"` stored when loading fails, and
`real` is a loaded `FishActivityModel`, abstracted as its per-frame
prediction function (softmax/argmax already folded in: the function yields
the argmax class, the max softmax probability and the feed-head scalar). -/
inductive ModelSlot where
  | noneSlot
  | mockSentinel
  | real (predict : ℕ → FramePrediction)

/-- Embedding of `load_model` (`ai_model.py` lines 98-113): on success the
slot holds the real model, on any exception the sentinel string
`"mock_model"` is stored. -/
def loadModel (loadOk : Bool) (p : ℕ → FramePrediction) : ModelSlot :=
  if loadOk then ModelSlot.real p else ModelSlot.mockSentinel

/-- Embedding of `is_loaded` (`ai_model.py` lines 115-117):
`self.model is not None`. -/
def isLoaded : ModelSlot → Bool
  | ModelSlot.noneSlot => false
  | _ => true

/-- The guard `not self.model or self.model == "mock_model"` at
`ai_model.py` lines 201 and 244: `None` is falsy and the sentinel string
compares equal, so exactly the non-`real` slots route to `_mock_analysis`. -/
def usesFallback : ModelSlot → Bool
  | ModelSlot.real _ => false
  | _ => true

/-- Embedding of `_analyze_frames` (`ai_model.py` lines 199-240): fallback
when the model is absent or the sentinel, otherwise per-frame prediction
followed by aggregation. -/
def analyzeFrames (m : ModelSlot) (mr : MockRand) (frames : List ℕ) :
    Except Err AggregateResult :=
  match m with
  | ModelSlot.real f => aggregateResults (frames.map f) mr.fishRaw
  | _ => Except.ok (mockAnalysis mr)

/-- Embedding of `_analyze_single_image` (`ai_model.py` lines 242-263). -/
def analyzeSingleImage (m : ModelSlot) (mr : MockRand) (img : ℕ) : AggregateResult :=
  match m with
  | ModelSlot.real f =>
      let p := f img
      { activity_level := activityLevels p.activity_class,
        confidence := p.confidence,
        feed_amount := max (1/2) p.feed_amount,
        fish_count := randint 15 45 mr.fishRaw }
  | _ => mockAnalysis mr

/-- Message appended for high or feeding activity (`ai_model.py` line 283). -/
def feedingOptimalMsg : String :=
  "Fish are actively feeding - optimal time for feed distribution"

/-- Message appended for low activity (`ai_model.py` line 285). -/
def reduceFeedMsg : String :=
  "Low fish activity detected - consider reducing feed amount"

/-- Message appended for high fish density (`ai_model.py` line 288). -/
def densityHighMsg : String :=
  "High fish density observed - monitor water quality closely"

/-- Message appended for low fish density (`ai_model.py` line 290). -/
def targetedMsg : String :=
  "Lower fish density - feed distribution can be more targeted"

/-- Message appended for a high feed requirement (`ai_model.py` line 293). -/
def growthPhaseMsg : String :=
  "Higher feed requirement detected - fish growth phase likely"

/-- Embedding of `_generate_insights` (`ai_model.py` lines 274-295); the
three rule groups append in source order. -/
def generateInsights (activity : String) (fishCount : ℕ) (feedAmount : ℚ) :
    List String :=
  (if activity = "High" ∨ activity = "Feeding" then [feedingOptimalMsg]
   else if activity = "Low" then [reduceFeedMsg] else []) ++
  (if 35 < fishCount then [densityHighMsg]
   else if fishCount < 20 then [targetedMsg] else []) ++
  (if 3 < feedAmount then [growthPhaseMsg] else [])

/-- Message for confidence above 0.9 (`ai_model.py` line 305). -/
def highConfMsg : String :=
  "High confidence analysis - safe to apply recommendations"

/-- Message for confidence below 0.7 (`ai_model.py` line 307). -/
def lowConfMsg : String :=
  "Lower confidence - consider manual verification"

/-- Message for feeding activity (`ai_model.py` line 310). -/
def continueScheduleMsg : String :=
  "Continue current feeding schedule - fish responding well"

/-- Message for low activity (`ai_model.py` line 312). -/
def reduceFrequencyMsg : String :=
  "Reduce feeding frequency or amount to prevent waste"

/-- First unconditional trailing message (`ai_model.py` line 314). -/
def monitorMsg : String :=
  "Monitor water temperature and quality parameters"

/-- Second unconditional trailing message (`ai_model.py` line 315). -/
def scheduleMsg : String :=
  "Schedule next analysis within 4-6 hours"

/-- Embedding of `_generate_recommendations` (`ai_model.py` lines 297-317). -/
def generateRecommendations (activity : String) (confidence : ℚ) : List String :=
  (if 9/10 < confidence then [highConfMsg]
   else if confidence < 7/10 then [lowConfMsg] else []) ++
  (if activity = "Feeding" then [continueScheduleMsg]
   else if activity = "Low" then [reduceFrequencyMsg] else []) ++
  [monitorMsg, scheduleMsg]

/-- Heterogeneous values of the final results dict. -/
inductive Value where
  | str (s : String)
  | rat (q : ℚ)
  | nat (n : ℕ)
  | strList (l : List String)
deriving DecidableEq

/-- Python's `round(q, 2)`: rounding to two decimal places (the embedding
uses round-half-up where Python uses banker's rounding; no claim depends on
values at the half-way points). -/
def round2 (q : ℚ) : ℚ := ((round (q * 100) : ℤ) : ℚ) / 100

/-- Python's `round(q, 1)`: rounding to one decimal place. -/
def round1 (q : ℚ) : ℚ := ((round (q * 10) : ℤ) : ℚ) / 10

/-- Random draws consumed by the orchestrator when assembling the results
dict (`ai_model.py` lines 146-161): the feeding-behavior choice, the three
`np.random.random()` draws for the economic scores, and the water-quality
choice. -/
structure OrchRand where
  behaviorIdx : Fin 5
  costR : ℚ
  effR : ℚ
  susR : ℚ
  wqIdx : Fin 3

/-- The three `water_quality_impact` choices (`ai_model.py` line 158). -/
def waterQualityChoices (i : Fin 3) : String :=
  (["Minimal", "Low", "Moderate"] : List String).get ⟨i.val, i.isLt⟩

/-- Assembly of the final results dict (`ai_model.py` lines 146-161), in the
source's key order. The `analysis_results.get(key, default)` calls always
find their key because every branch of `_analyze_frames`,
`_analyze_single_image` and `_mock_analysis` returns exactly the four
aggregate keys, so the random defaults are dead on every reachable path. -/
def buildResults (farmId analysisId : String) (ts : ℕ) (orr : OrchRand)
    (agg : AggregateResult) : List (String × Value) :=
  [("farm_id", Value.str farmId),
   ("analysis_id", Value.str analysisId),
   ("timestamp", Value.nat ts),
   ("fish_count", Value.nat agg.fish_count),
   ("activity_level", Value.str agg.activity_level),
   ("feeding_behavior", Value.str (feedingBehaviors orr.behaviorIdx)),
   ("recommended_feed_amount", Value.rat agg.feed_amount),
   ("confidence_score", Value.rat agg.confidence),
   ("estimated_cost_savings", Value.rat (round2 (10 + orr.costR * 20))),
   ("efficiency_score", Value.rat (round1 (7 + orr.effR * (5/2)))),
   ("sustainability_score", Value.rat (round1 (15/2 + orr.susR * 2))),
   ("water_quality_impact", Value.str (waterQualityChoices orr.wqIdx)),
   ("insights", Value.strList
      (generateInsights agg.activity_level agg.fish_count agg.feed_amount)),
   ("recommendations", Value.strList
      (generateRecommendations agg.activity_level agg.confidence))]

/-- The fixed key set of every assembled results dict, in source order. -/
def standardKeys : List String :=
  ["farm_id", "analysis_id", "timestamp", "fish_count", "activity_level",
   "feeding_behavior", "recommended_feed_amount", "confidence_score",
   "estimated_cost_savings", "efficiency_score", "sustainability_score",
   "water_quality_impact", "insights", "recommendations"]

/-- Embedding of `analyze_fish_activity` (`ai_model.py` lines 119-168):
dispatch on the filename extension, run the video or single-image pipeline,
assemble the results dict; any exception propagates (`raise e`). The media
environment is passed as the `imread` and `vcap` functions from paths to
decoder results. -/
def analyzeFishActivity (m : ModelSlot) (imread : String → Option ℕ)
    (vcap : String → Capture) (mr : MockRand) (orr : OrchRand)
    (filePath farmId analysisId : String) (ts : ℕ) :
    Except Err (List (String × Value)) :=
  if isVideoPath filePath then
    match analyzeFrames m mr (extractVideoFrames (vcap filePath)) with
    | Except.error e => Except.error e
    | Except.ok agg => Except.ok (buildResults farmId analysisId ts orr agg)
  else
    match loadImage (imread filePath) with
    | Except.error e => Except.error e
    | Except.ok img =>
        Except.ok (buildResults farmId analysisId ts orr (analyzeSingleImage m mr img))

/-- The single-image branch of `analyze_fish_activity` (`ai_model.py`
lines 140-143) as a standalone pipeline: decode the one image and analyze
it. -/
def analyzeImagePath (m : ModelSlot) (imread : String → Option ℕ)
    (mr : MockRand) (orr : OrchRand) (filePath farmId analysisId : String)
    (ts : ℕ) : Except Err (List (String × Value)) :=
  match loadImage (imread filePath) with
  | Except.error e => Except.error e
  | Except.ok img =>
      Except.ok (buildResults farmId analysisId ts orr (analyzeSingleImage m mr img))

/-- Fragment of a Python `datetime` relevant to `get_historical_analytics`:
the current day of month and the number of days in the current month. -/
structure PyDate where
  day : ℕ
  dim : ℕ

/-- Model of `datetime.replace(day=newDay)`: raises `ValueError` ("day is
out of range for month") unless `1 ≤ newDay ≤ days-in-month`. -/
def replaceDay (d : PyDate) (newDay : ℤ) : Except Err PyDate :=
  if 1 ≤ newDay ∧ newDay ≤ (d.dim : ℤ) then Except.ok ⟨newDay.toNat, d.dim⟩
  else Except.error Err.valueError

/-- One mock daily record of `get_historical_analytics` (`ai_model.py`
lines 350-357), keyed by the day of month its `date` lands on. -/
structure DayData where
  day : ℕ
  feed : ℚ
  growth : ℚ
  cost : ℚ
  efficiency : ℚ
  waterQuality : ℚ

/-- Random draws consumed by `get_historical_analytics`: one
`np.random.random()` per field per day index, and one for the environmental
score. -/
structure HistRand where
  feedR : ℕ → ℚ
  growthR : ℕ → ℚ
  costR : ℕ → ℚ
  effR : ℕ → ℚ
  wqR : ℕ → ℚ
  envR : ℚ

/-- Mock data for day `i` of the period (`ai_model.py` lines 349-358): the
date is `start_date.replace(day=start_date.day + i)`, which can itself
raise. -/
def mkDayData (hr : HistRand) (start : PyDate) (i : ℕ) : Except Err DayData :=
  match replaceDay start ((start.day : ℤ) + (i : ℤ)) with
  | Except.error e => Except.error e
  | Except.ok dte =>
      Except.ok
        { day := dte.day,
          feed := round2 (5/2 + hr.feedR i * 1),
          growth := round2 (2 + hr.growthR i * (4/5)),
          cost := round2 (11 + hr.costR i * 6),
          efficiency := round1 (85 + hr.effR i * 10),
          waterQuality := round1 (15/2 + hr.wqR i * (3/2)) }

/-- The record returned by `get_historical_analytics` (`ai_model.py`
lines 360-373); period endpoints are kept as days of month. -/
structure HistoricalAnalytics where
  farm_id : String
  period_start : ℕ
  period_end : ℕ
  total_feed_used : ℚ
  average_daily_feed : ℚ
  feed_cost_total : ℚ
  total_growth : ℚ
  average_growth_rate : ℚ
  feed_conversion_efficiency : ℚ
  water_quality_score : ℚ
  environmental_impact_score : ℚ
  daily_data : List DayData

/-- Embedding of `get_historical_analytics` (`ai_model.py` lines 341-373):
the period start is `utcnow().replace(day=end_date.day - days)`, then `days`
mock daily records are generated and aggregated. -/
def getHistoricalAnalytics (farmId : String) (now : PyDate) (days : ℕ)
    (hr : HistRand) : Except Err HistoricalAnalytics :=
  match replaceDay now ((now.day : ℤ) - (days : ℤ)) with
  | Except.error e => Except.error e
  | Except.ok start =>
      match (List.range days).mapM (mkDayData hr start) with
      | Except.error e => Except.error e
      | Except.ok daily =>
          Except.ok
            { farm_id := farmId,
              period_start := start.day,
              period_end := now.day,
              total_feed_used := round2 (daily.map DayData.feed).sum,
              average_daily_feed := round2 (ratMean (daily.map DayData.feed)),
              feed_cost_total := round2 (daily.map DayData.cost).sum,
              total_growth := round2 (daily.map DayData.growth).sum,
              average_growth_rate := round2 (ratMean (daily.map DayData.growth)),
              feed_conversion_efficiency :=
                round1 (ratMean (daily.map DayData.efficiency)),
              water_quality_score :=
                round1 (ratMean (daily.map DayData.waterQuality)),
              environmental_impact_score := round1 (17/2 + hr.envR * 1),
              daily_data := daily }

/-- Spec-side occurrence count of a label in the frame-label sequence. -/
def occ (k : String) : List String → ℕ
  | [] => 0
  | x :: rest => (if x = k then 1 else 0) + occ k rest

/-- Spec-side notion for the majority-vote tie-break: the distinct labels in
order of first appearance (mirrors the insertion order of a Python dict keyed
by label). -/
def dedupFirst (labels : List String) : List String :=
  labels.foldl (fun acc x => if x ∈ acc then acc else acc ++ [x]) []

/-- Spec-side maximal occurrence count over all labels. -/
def maxOccurrence (labels : List String) : ℕ :=
  (dedupFirst labels).foldr (fun k m => max (occ k labels) m) 0

/-- Spec-side dominant label: the first-appearing label whose occurrence
count attains the maximum — the "first key reaching the max count wins"
rule the specification describes. -/
def specDominant (labels : List String) : Option String :=
  (dedupFirst labels).find? (fun k => occ k labels = maxOccurrence labels)

/-- First-match lookup of a count in the association list that models the
`activity_counts` dict. -/
def countOf : List (String × ℕ) → String → ℕ
  | [], _ => 0
  | (a, n) :: rest, k => if a = k then n else countOf rest k

/-- Maximum of the counts stored in the association list. -/
def maxSnd : List (String × ℕ) → ℕ
  | [] => 0
  | p :: rest => max p.2 (maxSnd rest)

theorem bump_map_fst (l : List (String × ℕ)) (k : String) :
    (bump l k).map Prod.fst =
      if k ∈ l.map Prod.fst then l.map Prod.fst else l.map Prod.fst ++ [k] := by
  induction l with
  | nil => simp [bump]
  | cons p rest ih =>
      obtain ⟨a, n⟩ := p
      by_cases hak : a = k
      · subst hak
        simp [bump]
      · have hka : ¬ k = a := fun h => hak h.symm
        by_cases hk : k ∈ rest.map Prod.fst <;>
          simp [bump, hak, hka, hk, ih]

theorem countOf_bump (l : List (String × ℕ)) (k k' : String) :
    countOf (bump l k) k' = countOf l k' + (if k' = k then 1 else 0) := by
  induction l with
  | nil =>
      by_cases h : k' = k
      · subst h; simp [bump, countOf]
      · have hk : ¬ k = k' := fun hh => h hh.symm
        simp [bump, countOf, h, hk]
  | cons p rest ih =>
      obtain ⟨a, n⟩ := p
      by_cases hak : a = k
      · subst hak
        by_cases h : a = k'
        · subst h; simp [bump, countOf]
        · have hk : ¬ k' = a := fun hh => h hh.symm
          simp [bump, countOf, h, hk]
      · by_cases h : a = k'
        · subst h
          simp [bump, countOf, hak]
        · simp [bump, countOf, hak, h, ih]

theorem countOf_foldl_bump (labels : List String) (acc : List (String × ℕ))
    (k : String) :
    countOf (labels.foldl bump acc) k = countOf acc k + occ k labels := by
  induction labels generalizing acc with
  | nil => simp [occ]
  | cons x xs ih =>
      have := ih (bump acc x)
      simp only [List.foldl_cons, this, countOf_bump, occ]
      by_cases h : k = x
      · subst h; simp
        omega
      · have hx : ¬ x = k := fun hh => h hh.symm
        simp [h, hx]

theorem countOf_countLabels (labels : List String) (k : String) :
    countOf (countLabels labels) k = occ k labels := by
  have := countOf_foldl_bump labels [] k
  simpa [countLabels, countOf] using this

theorem map_fst_foldl_bump (labels : List String) (acc : List (String × ℕ)) :
    (labels.foldl bump acc).map Prod.fst =
      labels.foldl (fun ks x => if x ∈ ks then ks else ks ++ [x])
        (acc.map Prod.fst) := by
  induction labels generalizing acc with
  | nil => simp
  | cons x xs ih =>
      simp only [List.foldl_cons, ih (bump acc x), bump_map_fst]

theorem keys_countLabels (labels : List String) :
    (countLabels labels).map Prod.fst = dedupFirst labels := by
  simpa [countLabels, dedupFirst] using map_fst_foldl_bump labels []

theorem bump_ne_nil (l : List (String × ℕ)) (k : String) : bump l k ≠ [] := by
  cases l with
  | nil => simp [bump]
  | cons p rest =>
      obtain ⟨a, n⟩ := p
      by_cases h : a = k <;> simp [bump, h]

theorem foldl_bump_ne_nil (labels : List String) (acc : List (String × ℕ))
    (h : acc ≠ []) : labels.foldl bump acc ≠ [] := by
  induction labels generalizing acc with
  | nil => simpa using h
  | cons x xs ih => exact ih (bump acc x) (bump_ne_nil acc x)

theorem countLabels_ne_nil (labels : List String) (h : labels ≠ []) :
    countLabels labels ≠ [] := by
  cases labels with
  | nil => exact absurd rfl h
  | cons x xs =>
      exact foldl_bump_ne_nil xs (bump [] x) (bump_ne_nil [] x)

theorem nodup_keys_bump (l : List (String × ℕ)) (k : String)
    (h : (l.map Prod.fst).Nodup) : ((bump l k).map Prod.fst).Nodup := by
  rw [bump_map_fst]
  by_cases hk : k ∈ l.map Prod.fst
  · simpa [hk] using h
  · simp only [hk, if_false]
    rw [List.nodup_append]
    refine ⟨h, List.nodup_singleton k, ?_⟩
    intro a ha hb
    simp only [List.mem_singleton] at hb
    subst hb
    exact hk ha

theorem nodup_keys_foldl_bump (labels : List String) (acc : List (String × ℕ))
    (h : (acc.map Prod.fst).Nodup) :
    ((labels.foldl bump acc).map Prod.fst).Nodup := by
  induction labels generalizing acc with
  | nil => simpa using h
  | cons x xs ih => exact ih (bump acc x) (nodup_keys_bump acc x h)

theorem nodup_keys_countLabels (labels : List String) :
    ((countLabels labels).map Prod.fst).Nodup := by
  exact nodup_keys_foldl_bump labels [] (by simp)

theorem countOf_of_mem (l : List (String × ℕ)) (p : String × ℕ)
    (hnd : (l.map Prod.fst).Nodup) (hp : p ∈ l) : countOf l p.1 = p.2 := by
  induction l with
  | nil => exact absurd hp (List.not_mem_nil p)
  | cons q rest ih =>
      obtain ⟨a, n⟩ := q
      rcases List.mem_cons.mp hp with h | h
      · subst h; simp [countOf]
      · have hnd2 := hnd
        rw [List.map_cons, List.nodup_cons] at hnd2
        have hane : ¬ a = p.1 := by
          intro hcontra
          apply hnd2.1
          rw [hcontra]
          exact List.mem_map.mpr ⟨p, h, rfl⟩
        simp only [countOf, hane, if_false]
        exact ih hnd2.2 h

theorem snd_eq_occ (labels : List String) (p : String × ℕ)
    (hp : p ∈ countLabels labels) : p.2 = occ p.1 labels := by
  have h1 := countOf_of_mem (countLabels labels) p (nodup_keys_countLabels labels) hp
  rw [← h1, countOf_countLabels]

theorem firstMaxPair_snd (l : List (String × ℕ)) (p : String × ℕ) :
    (firstMaxPair p l).2 = max p.2 (maxSnd l) := by
  induction l generalizing p with
  | nil => simp [firstMaxPair, maxSnd]
  | cons q rest ih =>
      by_cases h : p.2 < q.2 <;> simp only [firstMaxPair, maxSnd, h, if_true, if_false] <;>
        rw [ih] <;> omega

theorem firstMaxPair_of_le (l : List (String × ℕ)) (p : String × ℕ)
    (h : maxSnd l ≤ p.2) : firstMaxPair p l = p := by
  induction l generalizing p with
  | nil => rfl
  | cons q rest ih =>
      simp only [maxSnd] at h
      have h1 : ¬ p.2 < q.2 := by omega
      simp only [firstMaxPair, h1, if_false]
      exact ih p (by omega)

theorem firstMaxPair_congr (l : List (String × ℕ)) (p q : String × ℕ)
    (hp : p.2 < maxSnd l) (hq : q.2 < maxSnd l) :
    firstMaxPair p l = firstMaxPair q l := by
  induction l generalizing p q with
  | nil => simp [maxSnd] at hp
  | cons r rest ih =>
      simp only [maxSnd] at hp hq
      by_cases h1 : p.2 < r.2 <;> by_cases h2 : q.2 < r.2 <;>
        simp only [firstMaxPair, h1, h2, if_true, if_false]
      · exact ih r q (by omega) (by omega)
      · exact ih p r (by omega) (by omega)
      · exact ih p q (by omega) (by omega)

theorem find_firstMaxPair (l : List (String × ℕ)) (p : String × ℕ) :
    (p :: l).find? (fun q => q.2 = max p.2 (maxSnd l)) = some (firstMaxPair p l) := by
  induction l generalizing p with
  | nil =>
      simp [firstMaxPair, maxSnd, List.find?_cons]
  | cons q rest ih =>
      by_cases hpq : p.2 < q.2
      · have hM : max p.2 (maxSnd (q :: rest)) = max q.2 (maxSnd rest) := by
          simp only [maxSnd]; omega
        have hp2 : ¬ p.2 = max p.2 (maxSnd (q :: rest)) := by
          simp only [maxSnd]; omega
        rw [List.find?_cons_of_neg _ (by simpa using hp2), hM]
        simp only [firstMaxPair, hpq, if_true]
        exact ih q
      · by_cases hx : maxSnd rest ≤ p.2
        · have hM : max p.2 (maxSnd (q :: rest)) = p.2 := by
            simp only [maxSnd]; omega
          rw [List.find?_cons_of_pos _ (by simp [hM])]
          simp only [firstMaxPair, hpq, if_false]
          rw [firstMaxPair_of_le rest p hx]
        · have hM : max p.2 (maxSnd (q :: rest)) = maxSnd rest := by
            simp only [maxSnd]; omega
          have hp2 : ¬ p.2 = max p.2 (maxSnd (q :: rest)) := by omega
          rw [List.find?_cons_of_neg _ (by simpa using hp2)]
          have hMq : max q.2 (maxSnd rest) = maxSnd rest := by omega
          have := ih q
          rw [hMq] at this
          rw [hM, this]
          simp only [firstMaxPair, hpq, if_false]
          rw [firstMaxPair_congr rest q p (by omega) (by omega)]

theorem foldr_max_map_fst (l : List (String × ℕ)) (f : String → ℕ)
    (h : ∀ p ∈ l, p.2 = f p.1) :
    (l.map Prod.fst).foldr (fun k m => max (f k) m) 0 = maxSnd l := by
  induction l with
  | nil => simp [maxSnd]
  | cons p rest ih =>
      simp only [List.map_cons, List.foldr_cons, maxSnd]
      rw [ih (fun q hq => h q (List.mem_cons_of_mem p hq)),
        h p (List.mem_cons_self p rest)]

theorem find_map_fst (l : List (String × ℕ)) (f : String → ℕ) (M : ℕ)
    (h : ∀ p ∈ l, p.2 = f p.1) :
    (l.map Prod.fst).find? (fun k => f k = M) =
      (l.find? (fun p => p.2 = M)).map Prod.fst := by
  induction l with
  | nil => simp
  | cons p rest ih =>
      have hp := h p (List.mem_cons_self p rest)
      by_cases hM : p.2 = M
      · rw [List.map_cons,
          List.find?_cons_of_pos _ (by simp [← hp, hM]),
          List.find?_cons_of_pos _ (by simp [hM])]
        rfl
      · rw [List.map_cons,
          List.find?_cons_of_neg _ (by simp [← hp, hM]),
          List.find?_cons_of_neg _ (by simp [hM])]
        exact ih (fun q hq => h q (List.mem_cons_of_mem p hq))

theorem dominant_eq_spec (labels : List String) (h : labels ≠ []) :
    ∃ lbl, specDominant labels = some lbl ∧
      dominantActivity labels = Except.ok lbl := by
  obtain ⟨c, cs, hL⟩ : ∃ c cs, countLabels labels = c :: cs := by
    cases hcl : countLabels labels with
    | nil => exact absurd hcl (countLabels_ne_nil labels h)
    | cons c cs => exact ⟨c, cs, rfl⟩
  have hent : ∀ p ∈ countLabels labels, p.2 = (fun k => occ k labels) p.1 :=
    fun p hp => snd_eq_occ labels p hp
  have hmax : maxOccurrence labels = maxSnd (countLabels labels) := by
    rw [maxOccurrence, ← keys_countLabels]
    exact foldr_max_map_fst (countLabels labels) (fun k => occ k labels) hent
  have hfind :
      specDominant labels =
        ((countLabels labels).find?
          (fun p => p.2 = maxSnd (countLabels labels))).map Prod.fst := by
    rw [specDominant, ← keys_countLabels, ← hmax]
    exact find_map_fst (countLabels labels) (fun k => occ k labels)
      (maxOccurrence labels) hent
  refine ⟨(firstMaxPair c cs).1, ?_, ?_⟩
  · rw [hfind, hL]
    have : maxSnd (c :: cs) = max c.2 (maxSnd cs) := rfl
    rw [this, find_firstMaxPair cs c]
    rfl
  · rw [dominantActivity, hL]

theorem aggregateResults_ok (results : List FramePrediction) (fishRaw : ℕ)
    (h : results ≠ []) :
    ∃ lbl,
      specDominant (results.map (fun r => activityLevels r.activity_class)) =
        some lbl ∧
      aggregateResults results fishRaw = Except.ok
        { activity_level := lbl,
          confidence := ratMean (results.map (fun r => r.confidence)),
          feed_amount := max (1/2) (ratMean (results.map (fun r => r.feed_amount))),
          fish_count := randint 15 45 fishRaw } := by
  have hlab : results.map (fun r => activityLevels r.activity_class) ≠ [] := by
    simpa using h
  obtain ⟨lbl, h1, h2⟩ := dominant_eq_spec _ hlab
  refine ⟨lbl, h1, ?_⟩
  simp only [aggregateResults, h2]

/-- Extract the aggregated activity label from an analysis outcome. -/
def aggLabel (e : Except Err AggregateResult) : Option String :=
  match e with
  | Except.ok a => some a.activity_level
  | Except.error _ => none

/-- Extract the aggregated feed amount from an analysis outcome. -/
def aggFeed (e : Except Err AggregateResult) : Option ℚ :=
  match e with
  | Except.ok a => some a.feed_amount
  | Except.error _ => none

/-- Claim C1 (amended): for every non-empty sequence of frame predictions the
aggregated `activity_level` is the label with the highest occurrence count
across frames, with ties broken by the earliest first appearance among the
frames (first key reaching the max count under the counts dict's insertion
order), not by the lowest activity-class ordinal; in particular activity
classes `[0, 0, 1]` yield the label for class 0 and the tie `[0, 1]` also
yields the label for class 0. -/
theorem claim1_majority_first_seen :
    (∀ (results : List FramePrediction) (fishRaw : ℕ), results ≠ [] →
      ∃ agg, aggregateResults results fishRaw = Except.ok agg ∧
        specDominant (results.map (fun r => activityLevels r.activity_class)) =
          some agg.activity_level) ∧
    aggLabel (aggregateResults [⟨0, 9/10, 1⟩, ⟨0, 9/10, 1⟩, ⟨1, 9/10, 1⟩] 0) =
      some (activityLevels 0) ∧
    aggLabel (aggregateResults [⟨0, 9/10, 1⟩, ⟨1, 9/10, 1⟩] 0) =
      some (activityLevels 0) := by
  refine ⟨?_, by decide, by decide⟩
  intro results fishRaw h
  obtain ⟨lbl, h1, h2⟩ := aggregateResults_ok results fishRaw h
  exact ⟨_, h2, h1⟩

/-- Witness for the amended claim C1 at a concrete one-frame input. -/
theorem claim1_majority_first_seen_witness :
    ∃ agg, aggregateResults [⟨2, 9/10, 1⟩] 7 = Except.ok agg ∧
      specDominant (([⟨2, 9/10, 1⟩] : List FramePrediction).map
          (fun r => activityLevels r.activity_class)) =
        some agg.activity_level :=
  claim1_majority_first_seen.1 [⟨2, 9/10, 1⟩] 7 (by decide)

/-- Counterexample to claim C1 as stated: frame activity classes `[1, 0]`
tie at one occurrence each, yet the aggregate is the label for class 1
("Moderate", the first to appear), not the lowest-ordinal label "Low". -/
theorem claim1_counterexample :
    aggLabel (aggregateResults [⟨1, 9/10, 1⟩, ⟨0, 9/10, 1⟩] 0) =
      some "Moderate" ∧
    occ (activityLevels 0)
        (([⟨1, 9/10, 1⟩, ⟨0, 9/10, 1⟩] : List FramePrediction).map
          (fun r => activityLevels r.activity_class)) =
      occ (activityLevels 1)
        (([⟨1, 9/10, 1⟩, ⟨0, 9/10, 1⟩] : List FramePrediction).map
          (fun r => activityLevels r.activity_class)) ∧
    activityLevels 0 = "Low" ∧ activityLevels 1 = "Moderate" ∧
    "Moderate" ≠ "Low" := by
  refine ⟨by decide, by decide, by decide, by decide, by decide⟩

/-- Claim C4: for every non-empty sequence of frame predictions the
aggregated `feed_amount` is the arithmetic mean of the per-frame feed
amounts when that mean is at least 0.5 and is 0.5 otherwise; in particular
per-frame feed amounts `[0.1, 0.2, 0.3]` aggregate to exactly 0.5. -/
theorem claim4_feed_amount_floor :
    (∀ (results : List FramePrediction) (fishRaw : ℕ), results ≠ [] →
      ∃ agg, aggregateResults results fishRaw = Except.ok agg ∧
        agg.feed_amount =
          max (1/2) (ratMean (results.map (fun r => r.feed_amount))) ∧
        ((1/2 : ℚ) ≤ ratMean (results.map (fun r => r.feed_amount)) →
          agg.feed_amount = ratMean (results.map (fun r => r.feed_amount))) ∧
        (ratMean (results.map (fun r => r.feed_amount)) < 1/2 →
          agg.feed_amount = 1/2)) ∧
    aggFeed (aggregateResults [⟨0, 1, 1/10⟩, ⟨0, 1, 1/5⟩, ⟨0, 1, 3/10⟩] 0) =
      some (1/2) := by
  constructor
  · intro results fishRaw h
    obtain ⟨lbl, _, h2⟩ := aggregateResults_ok results fishRaw h
    exact ⟨_, h2, rfl, fun hge => max_eq_right hge, fun hlt => max_eq_left hlt.le⟩
  · obtain ⟨lbl, _, h2⟩ :=
      aggregateResults_ok [⟨0, 1, 1/10⟩, ⟨0, 1, 1/5⟩, ⟨0, 1, 3/10⟩] 0 (by decide)
    simp only [aggFeed, h2]
    norm_num [ratMean]

/-- Witness for claim C4 at a concrete one-frame input. -/
theorem claim4_feed_amount_floor_witness :
    ∃ agg, aggregateResults [⟨0, 1, 3⟩] 0 = Except.ok agg ∧
      agg.feed_amount =
        max (1/2) (ratMean (([⟨0, 1, 3⟩] : List FramePrediction).map
          (fun r => r.feed_amount))) ∧
      ((1/2 : ℚ) ≤ ratMean (([⟨0, 1, 3⟩] : List FramePrediction).map
          (fun r => r.feed_amount)) →
        agg.feed_amount = ratMean (([⟨0, 1, 3⟩] : List FramePrediction).map
          (fun r => r.feed_amount))) ∧
      (ratMean (([⟨0, 1, 3⟩] : List FramePrediction).map
          (fun r => r.feed_amount)) < 1/2 →
        agg.feed_amount = 1/2) :=
  claim4_feed_amount_floor.1 [⟨0, 1, 3⟩] 0 (by decide)

/-- Claim C7: on aggregate input `activity_level = "Low"`, `fish_count = 40`,
`feed_amount = 3.5` the insight engine returns exactly the reduce-feed
message, the high-density message and the growth-phase message, in that
order. -/
theorem claim7_insights_exact :
    generateInsights "Low" 40 (7/2) =
      [reduceFeedMsg, densityHighMsg, growthPhaseMsg] ∧
    (generateInsights "Low" 40 (7/2)).length = 3 := by
  have h : generateInsights "Low" 40 (7/2) =
      [reduceFeedMsg, densityHighMsg, growthPhaseMsg] := by
    norm_num [generateInsights]
    decide
  exact ⟨h, by rw [h]; rfl⟩

theorem extractLoop_length (interval : ℕ) (rem : List ℕ) (idx cnt : ℕ) :
    (extractLoop interval rem idx cnt).length ≤ 30 - cnt := by
  induction rem generalizing idx cnt with
  | nil => simp [extractLoop]
  | cons f rest ih =>
      by_cases h1 : cnt < 30
      · by_cases h2 : idx % interval = 0
        · simp only [extractLoop, h1, h2, if_true, List.length_cons]
          have := ih (idx + 1) (cnt + 1)
          omega
        · simp only [extractLoop, h1, h2, if_true, if_false]
          exact ih (idx + 1) cnt
      · simp [extractLoop, h1]

theorem extractLoop_sublist (interval : ℕ) (rem : List ℕ) (idx cnt : ℕ) :
    (extractLoop interval rem idx cnt).Sublist rem := by
  induction rem generalizing idx cnt with
  | nil => simp [extractLoop]
  | cons f rest ih =>
      by_cases h1 : cnt < 30
      · by_cases h2 : idx % interval = 0
        · simp only [extractLoop, h1, h2, if_true]
          exact List.Sublist.cons₂ f (ih (idx + 1) (cnt + 1))
        · simp only [extractLoop, h1, h2, if_true, if_false]
          exact List.Sublist.cons f (ih (idx + 1) cnt)
      · simp [extractLoop, h1]

/-- Claim C3 (amended): the video sampler returns at most 30 frames and the
returned frames are a subsequence of the source frames, hence in temporal
order; the lower bound of one frame holds only when the capture opened and
decoded at least one frame — an unreadable or empty video yields zero
frames. -/
theorem claim3_sampler_bounds (cap : Capture) :
    (extractVideoFrames cap).length ≤ 30 ∧
    (extractVideoFrames cap).Sublist cap.frames ∧
    (cap.opened = true → cap.frames ≠ [] → 1 ≤ (extractVideoFrames cap).length) := by
  refine ⟨?_, ?_, ?_⟩
  · rw [extractVideoFrames]
    by_cases h : cap.opened <;> simp only [h, if_true, if_false, Bool.false_eq_true]
    · have := extractLoop_length (max 1 (cap.total / 30)) cap.frames 0 0
      omega
    · simp
  · rw [extractVideoFrames]
    by_cases h : cap.opened <;> simp only [h, if_true, if_false, Bool.false_eq_true]
    · exact extractLoop_sublist (max 1 (cap.total / 30)) cap.frames 0 0
    · simp
  · intro hop hne
    rw [extractVideoFrames, hop, if_pos rfl]
    cases hfr : cap.frames with
    | nil => exact absurd hfr hne
    | cons f rest =>
        have h0 : (0 : ℕ) % max 1 (cap.total / 30) = 0 := Nat.zero_mod _
        simp [extractLoop, h0]

/-- Witness for the amended claim C3 at a concrete three-frame capture. -/
theorem claim3_sampler_bounds_witness :
    (extractVideoFrames ⟨true, 3, [10, 11, 12]⟩).length ≤ 30 ∧
    (extractVideoFrames ⟨true, 3, [10, 11, 12]⟩).Sublist [10, 11, 12] ∧
    1 ≤ (extractVideoFrames ⟨true, 3, [10, 11, 12]⟩).length := by
  obtain ⟨h1, h2, h3⟩ := claim3_sampler_bounds ⟨true, 3, [10, 11, 12]⟩
  exact ⟨h1, h2, h3 rfl (by decide)⟩

/-- Counterexample to claim C3 as stated: an unreadable video (capture never
opens) and an opened video with zero decodable frames both yield an empty
sample, violating the claimed lower bound of one frame. -/
theorem claim3_counterexample :
    extractVideoFrames ⟨false, 0, []⟩ = [] ∧
    extractVideoFrames ⟨true, 0, []⟩ = [] ∧
    ¬ 1 ≤ (extractVideoFrames ⟨false, 0, []⟩).length := by
  exact ⟨rfl, rfl, by decide⟩

/-- Claim C5: every fallback-predictor output has an activity level among
the five labels, confidence in [0.85, 0.99], feed amount in [2.0, 4.0] and
an integer fish count in [15, 45] (the `randint(15, 45)` draw in fact never
exceeds 44, since numpy's upper bound is exclusive). -/
theorem claim5_fallback_bounds (mr : MockRand)
    (h1 : 0 ≤ mr.r1) (h2 : mr.r1 < 1) (h3 : 0 ≤ mr.r2) (h4 : mr.r2 < 1) :
    (mockAnalysis mr).activity_level ∈ activityLabels ∧
    85/100 ≤ (mockAnalysis mr).confidence ∧
    (mockAnalysis mr).confidence ≤ 99/100 ∧
    2 ≤ (mockAnalysis mr).feed_amount ∧
    (mockAnalysis mr).feed_amount ≤ 4 ∧
    15 ≤ (mockAnalysis mr).fish_count ∧
    (mockAnalysis mr).fish_count ≤ 45 := by
  have hc14 : (0 : ℚ) ≤ 14/100 := by norm_num
  have hf2 : (0 : ℚ) ≤ 2 := by norm_num
  have hu1 : mr.r1 * (14/100) ≤ 1 * (14/100) :=
    mul_le_mul_of_nonneg_right h2.le hc14
  have hu2 : mr.r2 * 2 ≤ 1 * 2 := mul_le_mul_of_nonneg_right h4.le hf2
  have hl1 : 0 ≤ mr.r1 * (14/100) := mul_nonneg h1 hc14
  have hl2 : 0 ≤ mr.r2 * 2 := mul_nonneg h3 hf2
  have hmod : mr.fishRaw % 30 < 30 := Nat.mod_lt _ (by norm_num)
  refine ⟨?_, ?_, ?_, ?_, ?_, ?_, ?_⟩
  · exact List.get_mem activityLabels _ _
  · simp only [mockAnalysis]
    linarith
  · simp only [mockAnalysis]
    linarith
  · simp only [mockAnalysis]
    linarith
  · simp only [mockAnalysis]
    linarith
  · simp only [mockAnalysis, randint]
    omega
  · simp only [mockAnalysis, randint]
    omega

/-- Witness for claim C5 at all-zero random draws. -/
theorem claim5_fallback_bounds_witness :
    (mockAnalysis ⟨0, 0, 0, 0⟩).activity_level ∈ activityLabels ∧
    85/100 ≤ (mockAnalysis ⟨0, 0, 0, 0⟩).confidence ∧
    (mockAnalysis ⟨0, 0, 0, 0⟩).confidence ≤ 99/100 ∧
    2 ≤ (mockAnalysis ⟨0, 0, 0, 0⟩).feed_amount ∧
    (mockAnalysis ⟨0, 0, 0, 0⟩).feed_amount ≤ 4 ∧
    15 ≤ (mockAnalysis ⟨0, 0, 0, 0⟩).fish_count ∧
    (mockAnalysis ⟨0, 0, 0, 0⟩).fish_count ≤ 45 :=
  claim5_fallback_bounds ⟨0, 0, 0, 0⟩ (le_refl 0)
    (show (0 : ℚ) < 1 by norm_num) (le_refl 0) (show (0 : ℚ) < 1 by norm_num)

/-- Claim C9: after `load_model` runs, `is_loaded` reports `true` whether or
not loading succeeded, because the failure path stores the non-`None`
sentinel string `"mock_model"`; in particular `is_loaded` does not
distinguish a loaded model from the state that routes to the fallback
predictor. -/
theorem claim9_isLoaded_conflation (loadOk : Bool) (p : ℕ → FramePrediction) :
    isLoaded (loadModel loadOk p) = true ∧
    isLoaded (loadModel true p) = isLoaded (loadModel false p) ∧
    usesFallback (loadModel false p) = true ∧
    usesFallback (loadModel true p) = false := by
  cases loadOk <;> exact ⟨rfl, rfl, rfl, rfl⟩

/-- Constant random draws used to instantiate `get_historical_analytics`. -/
def hr0 : HistRand := ⟨fun _ => 0, fun _ => 0, fun _ => 0, fun _ => 0, fun _ => 0, 0⟩

/-- Claim C10: `get_historical_analytics` is not total — it replaces the
current date's day of month by `day - days`, so whenever the current day of
the month is at most `days` the `datetime.replace` call raises a
`ValueError` instead of returning the analytics record. -/
theorem claim10_historical_not_total (farmId : String) (now : PyDate)
    (days : ℕ) (hr : HistRand) (h : now.day ≤ days) :
    getHistoricalAnalytics farmId now days hr = Except.error Err.valueError := by
  have hneg : ¬ (1 ≤ (now.day : ℤ) - (days : ℤ) ∧
      (now.day : ℤ) - (days : ℤ) ≤ (now.dim : ℤ)) := by
    intro hc
    omega
  simp only [getHistoricalAnalytics, replaceDay, if_neg hneg]

/-- Witness for claim C10: on the 3rd of a month, the default 7-day window
raises. -/
theorem claim10_historical_not_total_witness :
    getHistoricalAnalytics "farm-1" ⟨3, 31⟩ 7 hr0 = Except.error Err.valueError :=
  claim10_historical_not_total "farm-1" ⟨3, 31⟩ 7 hr0 (by norm_num)

/-- A capture handle for a path OpenCV cannot open. -/
def deadCapture : Capture := ⟨false, 0, []⟩

/-- Claim C2 (amended): an unreadable image path propagates an error for
every model state; an unreadable or empty video propagates an error when a
real model is loaded; but when the fallback predictor is active an
unreadable video does not fail — it yields a fully-populated fallback
result. -/
theorem claim2_unreadable_media (m : ModelSlot) (imread : String → Option ℕ)
    (vcap : String → Capture) (mr : MockRand) (orr : OrchRand)
    (filePath farmId analysisId : String) (ts : ℕ) (f : ℕ → FramePrediction) :
    (isVideoPath filePath = false → imread filePath = none →
      analyzeFishActivity m imread vcap mr orr filePath farmId analysisId ts =
        Except.error Err.cvError) ∧
    (isVideoPath filePath = true → extractVideoFrames (vcap filePath) = [] →
      analyzeFishActivity (ModelSlot.real f) imread vcap mr orr filePath farmId
          analysisId ts =
        Except.error Err.valueError) ∧
    (isVideoPath filePath = true → usesFallback m = true →
      analyzeFishActivity m imread vcap mr orr filePath farmId analysisId ts =
        Except.ok (buildResults farmId analysisId ts orr (mockAnalysis mr))) := by
  refine ⟨?_, ?_, ?_⟩
  · intro hv hi
    simp [analyzeFishActivity, hv, hi, loadImage]
  · intro hv he
    simp [analyzeFishActivity, hv, he, analyzeFrames, aggregateResults,
      dominantActivity, countLabels]
  · intro hv hm
    cases m with
    | real g => simp [usesFallback] at hm
    | noneSlot => simp [analyzeFishActivity, hv, analyzeFrames]
    | mockSentinel => simp [analyzeFishActivity, hv, analyzeFrames]

/-- Witness for the amended claim C2 at concrete unreadable media. -/
theorem claim2_unreadable_media_witness :
    analyzeFishActivity ModelSlot.noneSlot (fun _ => none) (fun _ => deadCapture)
        ⟨0, 0, 0, 0⟩ ⟨0, 0, 0, 0, 0⟩ "pond.jpg" "farm-1" "an-1" 0 =
      Except.error Err.cvError ∧
    analyzeFishActivity (ModelSlot.real (fun _ => ⟨0, 1, 1⟩)) (fun _ => none)
        (fun _ => deadCapture) ⟨0, 0, 0, 0⟩ ⟨0, 0, 0, 0, 0⟩ "pond.mp4" "farm-1"
        "an-1" 0 =
      Except.error Err.valueError := by
  obtain ⟨h1, h2, _⟩ := claim2_unreadable_media ModelSlot.noneSlot (fun _ => none)
    (fun _ => deadCapture) ⟨0, 0, 0, 0⟩ ⟨0, 0, 0, 0, 0⟩ "pond.jpg" "farm-1" "an-1"
    0 (fun _ => ⟨0, 1, 1⟩)
  obtain ⟨_, h4, _⟩ := claim2_unreadable_media ModelSlot.noneSlot (fun _ => none)
    (fun _ => deadCapture) ⟨0, 0, 0, 0⟩ ⟨0, 0, 0, 0, 0⟩ "pond.mp4" "farm-1" "an-1"
    0 (fun _ => ⟨0, 1, 1⟩)
  exact ⟨h1 (by decide) rfl, h4 (by decide) rfl⟩

/-- Counterexample to claim C2 as stated: with the fallback active, analyzing
an unreadable video path returns a fully-populated result (all fourteen
fields present) instead of a propagated media error. -/
theorem claim2_counterexample :
    analyzeFishActivity ModelSlot.mockSentinel (fun _ => none)
        (fun _ => deadCapture) ⟨0, 0, 0, 0⟩ ⟨0, 0, 0, 0, 0⟩ "pond.mp4" "farm-1"
        "an-1" 0 =
      Except.ok (buildResults "farm-1" "an-1" 0 ⟨0, 0, 0, 0, 0⟩
        (mockAnalysis ⟨0, 0, 0, 0⟩)) ∧
    (buildResults "farm-1" "an-1" 0 ⟨0, 0, 0, 0, 0⟩
        (mockAnalysis ⟨0, 0, 0, 0⟩)).map Prod.fst = standardKeys := by
  have hv : isVideoPath "pond.mp4" = true := by decide
  exact ⟨by simp [analyzeFishActivity, hv, analyzeFrames], rfl⟩

/-- Claim C6: whenever the model is unavailable (`None` or the sentinel),
`analyze` on readable media returns a fully-populated result assembled from
the fallback predictor's values, and every assembled result — fallback- or
model-backed — carries exactly the same field set in the same order. -/
theorem claim6_fallback_full_result (m : ModelSlot) (imread : String → Option ℕ)
    (vcap : String → Capture) (mr : MockRand) (orr : OrchRand)
    (filePath farmId analysisId : String) (ts : ℕ)
    (hm : usesFallback m = true)
    (hr : isVideoPath filePath = true ∨ imread filePath ≠ none) :
    analyzeFishActivity m imread vcap mr orr filePath farmId analysisId ts =
      Except.ok (buildResults farmId analysisId ts orr (mockAnalysis mr)) ∧
    ∀ agg : AggregateResult,
      (buildResults farmId analysisId ts orr agg).map Prod.fst = standardKeys := by
  constructor
  · by_cases hv : isVideoPath filePath = true
    · cases m with
      | real g => simp [usesFallback] at hm
      | noneSlot => simp [analyzeFishActivity, hv, analyzeFrames]
      | mockSentinel => simp [analyzeFishActivity, hv, analyzeFrames]
    · have hv2 : isVideoPath filePath = false := by
        cases h : isVideoPath filePath
        · rfl
        · exact absurd h hv
      have hi : imread filePath ≠ none := by
        rcases hr with h | h
        · exact absurd h hv
        · exact h
      obtain ⟨img, himg⟩ : ∃ i, imread filePath = some i := by
        cases h : imread filePath with
        | none => exact absurd h hi
        | some i => exact ⟨i, rfl⟩
      cases m with
      | real g => simp [usesFallback] at hm
      | noneSlot =>
          simp [analyzeFishActivity, hv2, himg, loadImage, analyzeSingleImage]
      | mockSentinel =>
          simp [analyzeFishActivity, hv2, himg, loadImage, analyzeSingleImage]
  · intro agg
    rfl

/-- Witness for claim C6 at a readable image path with the model never
loaded. -/
theorem claim6_fallback_full_result_witness :
    analyzeFishActivity ModelSlot.noneSlot (fun _ => some 5)
        (fun _ => deadCapture) ⟨0, 0, 0, 0⟩ ⟨0, 0, 0, 0, 0⟩ "pond.jpg" "farm-1"
        "an-1" 0 =
      Except.ok (buildResults "farm-1" "an-1" 0 ⟨0, 0, 0, 0, 0⟩
        (mockAnalysis ⟨0, 0, 0, 0⟩)) ∧
    ∀ agg : AggregateResult,
      (buildResults "farm-1" "an-1" 0 ⟨0, 0, 0, 0, 0⟩ agg).map Prod.fst =
        standardKeys :=
  claim6_fallback_full_result ModelSlot.noneSlot (fun _ => some 5)
    (fun _ => deadCapture) ⟨0, 0, 0, 0⟩ ⟨0, 0, 0, 0, 0⟩ "pond.jpg" "farm-1"
    "an-1" 0 rfl (Or.inr (by simp))

/-- Claim C8: the media kind is derived solely from the filename extension —
for every path that is not a recognized video path the single-image branch
is taken, decoding exactly one frame and analyzing it. -/
theorem claim8_extension_dispatch (m : ModelSlot) (imread : String → Option ℕ)
    (vcap : String → Capture) (mr : MockRand) (orr : OrchRand)
    (filePath farmId analysisId : String) (ts : ℕ)
    (h : isVideoPath filePath = false) :
    analyzeFishActivity m imread vcap mr orr filePath farmId analysisId ts =
      analyzeImagePath m imread mr orr filePath farmId analysisId ts ∧
    ∀ img, imread filePath = some img →
      analyzeFishActivity m imread vcap mr orr filePath farmId analysisId ts =
        Except.ok (buildResults farmId analysisId ts orr
          (analyzeSingleImage m mr img)) := by
  constructor
  · simp [analyzeFishActivity, analyzeImagePath, h]
  · intro img himg
    simp [analyzeFishActivity, h, himg, loadImage]

/-- Witness for claim C8 at a path with an unrecognized extension. -/
theorem claim8_extension_dispatch_witness :
    analyzeFishActivity ModelSlot.noneSlot (fun _ => some 3)
        (fun _ => deadCapture) ⟨0, 0, 0, 0⟩ ⟨0, 0, 0, 0, 0⟩ "pond.xyz" "farm-1"
        "an-1" 0 =
      analyzeImagePath ModelSlot.noneSlot (fun _ => some 3) ⟨0, 0, 0, 0⟩
        ⟨0, 0, 0, 0, 0⟩ "pond.xyz" "farm-1" "an-1" 0 ∧
    ∀ img, (fun _ => some 3) "pond.xyz" = some img →
      analyzeFishActivity ModelSlot.noneSlot (fun _ => some 3)
          (fun _ => deadCapture) ⟨0, 0, 0, 0⟩ ⟨0, 0, 0, 0, 0⟩ "pond.xyz" "farm-1"
          "an-1" 0 =
        Except.ok (buildResults "farm-1" "an-1" 0 ⟨0, 0, 0, 0, 0⟩
          (analyzeSingleImage ModelSlot.noneSlot ⟨0, 0, 0, 0⟩ img)) :=
  claim8_extension_dispatch ModelSlot.noneSlot (fun _ => some 3)
    (fun _ => deadCapture) ⟨0, 0, 0, 0⟩ ⟨0, 0, 0, 0, 0⟩ "pond.xyz" "farm-1"
    "an-1" 0 (by decide)

end AquaVision

